import Mathlib

/-!
# CelestiaMonaco: the tab/session manager of `script.js`

A shallow embedding of the session logic of `src/script.js` (tab list, active
tab, editor text, the `monaco-tabs` storage slot, the context menu and the
file export) together with the properties proved about it.

JavaScript strings are sequences of UTF-16 code units, so a string is a list of
numbers below 65536.  Host facilities the script calls (`JSON.stringify`,
`JSON.parse`, `String.prototype.trim`, the regular-expression replace) are
written out after the ECMAScript definitions, restricted to the values that
reach them here.
-/

namespace CelestiaMonaco

/-! ## Strings -/

/-- A JavaScript string: its sequence of UTF-16 code units, each the number
below 65536 it is.  No function below makes a larger number out of code units. -/
abbrev JsString := List Nat

/-- UTF-16 encoding of one Unicode scalar value. -/
def utf16 (c : Char) : List Nat :=
  if c.toNat < 65536 then [c.toNat]
  else [0xD800 + (c.toNat - 65536) / 1024, 0xDC00 + (c.toNat - 65536) % 1024]

/-- The JavaScript string written by a Lean string literal. -/
def js (s : String) : JsString := s.data.flatMap utf16

/-! ## Export to file: the download name -/

/-- The code unit is an ASCII digit `0`..`9`. -/
def isDigit (u : Nat) : Bool := 48 ≤ u && u ≤ 57

/-- The code unit is an ASCII capital `A`..`Z`. -/
def isUpper (u : Nat) : Bool := 65 ≤ u && u ≤ 90

/-- The code unit is an ASCII small letter `a`..`z`. -/
def isLower (u : Nat) : Bool := 97 ≤ u && u ≤ 122

/-- The code unit `_`. -/
def underscore : Nat := 95

/-- What `/[^a-z0-9]/gi` matches: without the `u` flag the pattern works on code
units, and case-insensitive canonicalisation never maps a unit of 128 or more
onto an ASCII one, so the negated class matches every unit that is not an ASCII
letter or digit. -/
def matchesNonAlnum (u : Nat) : Bool := !(isLower u || isUpper u || isDigit u)

/-- The call `name.replace(/[^a-z0-9]/gi, '_')`: every match, one code unit
each, is replaced by `_`. -/
def replaceNonAlnum (name : JsString) : JsString :=
  name.map (fun u => if matchesNonAlnum u then underscore else u)

/-- The method `String.prototype.toLowerCase` on one code unit of an
ASCII-only string: capitals move to the small letter, the rest stays.  (In
`saveTabToFile` it only ever sees the output of `replaceNonAlnum`.) -/
def lowerUnit (u : Nat) : Nat :=
  if isUpper u then u + 32 else u

/-- The method `toLowerCase()` on an ASCII-only string. -/
def toLowerCase (s : JsString) : JsString := s.map lowerUnit

/-- The `fileName` of `saveTabToFile`. -/
def fileName (name : JsString) : JsString :=
  toLowerCase (replaceNonAlnum name) ++ js ".js"

/-- The `fullPath` of `saveTabToFile`: the value given to `a.download`. -/
def fullPath (name : JsString) : JsString :=
  js "MonacoScripts" ++ js "/" ++ fileName name

/-! ## Tabs and JSON values -/

/-- A tab record `{ id, name, content }` as `createTab` builds it. -/
structure Tab where
  id : JsString
  name : JsString
  content : JsString
  deriving DecidableEq, Repr

/-- A value as `JSON.parse` returns it.  A number keeps its lexeme, its numeric
value is never inspected by the script.  An object keeps its own properties in
creation order. -/
inductive JsVal where
  | null : JsVal
  | bool (b : Bool) : JsVal
  | num (lexeme : JsString) : JsVal
  | str (s : JsString) : JsVal
  | arr (items : List JsVal) : JsVal
  | obj (props : List (JsString × JsVal)) : JsVal

/-- The JavaScript object of a tab record: properties `id`, `name`, `content`
in that order, each a string. -/
def Tab.toJson (t : Tab) : JsVal :=
  .obj [(js "id", .str t.id), (js "name", .str t.name), (js "content", .str t.content)]

/-- Reads a parsed value back as a tab record: succeeds exactly on an object
whose properties are `id`, `name`, `content` in that order, each a string. -/
def JsVal.toTab? : JsVal → Option Tab
  | .obj [(k1, .str a), (k2, .str b), (k3, .str c)] =>
    if k1 = js "id" ∧ k2 = js "name" ∧ k3 = js "content" then some ⟨a, b, c⟩ else none
  | _ => none

/-! ## JSON.stringify on an array of tab records -/

/-- Lower-case hexadecimal digit of a number below 16. -/
def hexDigit (n : Nat) : Nat :=
  if n < 10 then 48 + n else 87 + n

/-- The six code units `\uXXXX` of the ECMAScript operation UnicodeEscape. -/
def unicodeEscape (u : Nat) : JsString :=
  [92, 117, hexDigit (u / 4096), hexDigit (u / 256 % 16),
    hexDigit (u / 16 % 16), hexDigit (u % 16)]

/-- A leading (high) surrogate. -/
def isHighSurrogate (u : Nat) : Bool := 0xD800 ≤ u && u ≤ 0xDBFF

/-- A trailing (low) surrogate. -/
def isLowSurrogate (u : Nat) : Bool := 0xDC00 ≤ u && u ≤ 0xDFFF

/-- The text starts with a trailing surrogate. -/
def startsWithLow : JsString → Bool
  | [] => false
  | l :: _ => isLowSurrogate l

/-- The inside of ECMAScript QuoteJSONString: the two-character escapes for
backspace, tab, line feed, form feed, carriage return, the double quote and the
backslash; `\uXXXX` for the other control characters and for a surrogate that
is not part of a pair; every other code unit as it is.  The flag says that the
unit at the head is the trailing half of a pair whose leading half was just
written. -/
def quoteFrom : Bool → JsString → JsString
  | _, [] => []
  | true, u :: rest => u :: quoteFrom false rest
  | false, u :: rest =>
    if u = 8 then 92 :: 98 :: quoteFrom false rest
    else if u = 9 then 92 :: 116 :: quoteFrom false rest
    else if u = 10 then 92 :: 110 :: quoteFrom false rest
    else if u = 12 then 92 :: 102 :: quoteFrom false rest
    else if u = 13 then 92 :: 114 :: quoteFrom false rest
    else if u = 34 then 92 :: 34 :: quoteFrom false rest
    else if u = 92 then 92 :: 92 :: quoteFrom false rest
    else if u < 32 then unicodeEscape u ++ quoteFrom false rest
    else if isHighSurrogate u then
      if startsWithLow rest then u :: quoteFrom true rest
      else unicodeEscape u ++ quoteFrom false rest
    else if isLowSurrogate u then unicodeEscape u ++ quoteFrom false rest
    else u :: quoteFrom false rest

/-- The quoted text of a string without the enclosing quotes. -/
def quoteBody (s : JsString) : JsString := quoteFrom false s

/-- ECMAScript QuoteJSONString. -/
def quote (s : JsString) : JsString := 34 :: (quoteBody s ++ [34])

/-- What `JSON.stringify` writes for one tab record. -/
def stringifyTab (t : Tab) : JsString :=
  js "\x7b\"id\":" ++ quote t.id ++ js ",\"name\":" ++ quote t.name
    ++ js ",\"content\":" ++ quote t.content ++ js "\x7d"

/-- The elements of the array text, separated by commas. -/
def stringifyItems : List Tab → JsString
  | [] => []
  | [t] => stringifyTab t
  | t :: ts => stringifyTab t ++ js "," ++ stringifyItems ts

/-- The call `JSON.stringify(tabs)` on an array of tab records. -/
def JSON.stringify (tabs : List Tab) : JsString :=
  js "[" ++ stringifyItems tabs ++ js "]"

/-! ## JSON.parse -/

/-- JSON white space: tab, line feed, carriage return, space. -/
def isWs (u : Nat) : Bool := u = 9 || u = 10 || u = 13 || u = 32

/-- Drops leading JSON white space. -/
def skipWs : JsString → JsString
  | [] => []
  | u :: rest => if isWs u then skipWs rest else u :: rest

/-- Value of a hexadecimal digit, either case. -/
def hexVal? (u : Nat) : Option Nat :=
  if isDigit u then some (u - 48)
  else if 97 ≤ u ∧ u ≤ 102 then some (u - 87)
  else if 65 ≤ u ∧ u ≤ 70 then some (u - 55)
  else none

/-- The code unit written by four hexadecimal digits. -/
def hex4 (a b c d : Nat) : Option Nat :=
  match hexVal? a, hexVal? b, hexVal? c, hexVal? d with
  | some x, some y, some z, some w => some (x * 4096 + y * 256 + z * 16 + w)
  | _, _, _, _ => none

/-- The code unit a single-character escape stands for. -/
def unescape (e : Nat) : Option Nat :=
  if e = 34 then some 34
  else if e = 92 then some 92
  else if e = 47 then some 47
  else if e = 98 then some 8
  else if e = 102 then some 12
  else if e = 110 then some 10
  else if e = 114 then some 13
  else if e = 116 then some 9
  else none

/-- Reads a JSON string after its opening quote: the decoded string and the
text after the closing quote.  Fails on a raw control character, a bad escape
or a missing closing quote. -/
def parseStringBody : JsString → Option (JsString × JsString)
  | [] => none
  | u :: rest =>
    if u = 34 then some ([], rest)
    else if u = 92 then
      match rest with
      | [] => none
      | e :: rest1 =>
        if e = 117 then
          match rest1 with
          | a :: b :: c :: d :: rest2 =>
            match hex4 a b c d with
            | some v => (parseStringBody rest2).map (fun r => (v :: r.1, r.2))
            | none => none
          | _ => none
        else
          match unescape e with
          | some v => (parseStringBody rest1).map (fun r => (v :: r.1, r.2))
          | none => none
    else if u < 32 then none
    else (parseStringBody rest).map (fun r => (u :: r.1, r.2))

/-- Splits off the longest run of ASCII digits. -/
def takeDigits : JsString → JsString × JsString
  | [] => ([], [])
  | u :: rest =>
    if isDigit u then ((takeDigits rest).1.cons u, (takeDigits rest).2) else ([], u :: rest)

/-- The integer part of a JSON number: `0`, or a non-zero digit and digits. -/
def scanInt (cs : JsString) : Option (JsString × JsString) :=
  match cs with
  | [] => none
  | u :: rest =>
    if u = 48 then some ([u], rest)
    else if isDigit u then some (u :: (takeDigits rest).1, (takeDigits rest).2)
    else none

/-- The optional fraction of a JSON number: a dot and at least one digit. -/
def scanFrac (cs : JsString) : Option (JsString × JsString) :=
  match cs with
  | u :: rest =>
    if u = 46 then
      match takeDigits rest with
      | ([], _) => none
      | (ds, rest1) => some (u :: ds, rest1)
    else some ([], cs)
  | [] => some ([], cs)

/-- The digits of an exponent, at least one. -/
def scanExpDigits (head : JsString) (cs : JsString) : Option (JsString × JsString) :=
  match takeDigits cs with
  | ([], _) => none
  | (ds, rest) => some (head ++ ds, rest)

/-- The optional exponent of a JSON number: `e` or `E`, an optional sign and at
least one digit. -/
def scanExp (cs : JsString) : Option (JsString × JsString) :=
  match cs with
  | u :: rest =>
    if u = 101 ∨ u = 69 then
      match rest with
      | s :: rest1 =>
        if s = 43 ∨ s = 45 then scanExpDigits [u, s] rest1
        else scanExpDigits [u] rest
      | [] => none
    else some ([], cs)
  | [] => some ([], cs)

/-- The lexeme of a JSON number at the head of the text. -/
def scanNumber (cs : JsString) : Option (JsString × JsString) :=
  let signed : JsString × JsString :=
    match cs with
    | u :: rest => if u = 45 then ([u], rest) else ([], cs)
    | [] => ([], cs)
  match scanInt signed.2 with
  | none => none
  | some (i, r1) =>
    match scanFrac r1 with
    | none => none
    | some (f, r2) =>
      match scanExp r2 with
      | none => none
      | some (e, r3) => some (signed.1 ++ i ++ f ++ e, r3)

/-- Removes a literal word from the head of the text. -/
def dropLit : JsString → JsString → Option JsString
  | [], cs => some cs
  | _ :: _, [] => none
  | l :: ls, c :: cs => if l = c then dropLit ls cs else none

/-- The operation CreateDataProperty during parsing: a repeated key overwrites
the earlier value in place, a new key is appended. -/
def setProp (props : List (JsString × JsVal)) (kv : JsString × JsVal) :
    List (JsString × JsVal) :=
  if props.any (fun p => p.1 = kv.1) then
    props.map (fun p => if p.1 = kv.1 then (p.1, kv.2) else p)
  else props ++ [kv]

mutual
/-- Reads one JSON value, with a bound on the nesting still allowed. -/
def parseValue : Nat → JsString → Option (JsVal × JsString)
  | 0, _ => none
  | fuel + 1, cs =>
    match skipWs cs with
    | [] => none
    | u :: rest =>
      if u = 34 then (parseStringBody rest).map (fun r => (JsVal.str r.1, r.2))
      else if u = 91 then
        match skipWs rest with
        | [] => none
        | v :: rest1 =>
          if v = 93 then some (JsVal.arr [], rest1)
          else (parseElements fuel rest).map (fun r => (JsVal.arr r.1, r.2))
      else if u = 123 then
        match skipWs rest with
        | [] => none
        | v :: rest1 =>
          if v = 125 then some (JsVal.obj [], rest1)
          else (parseMembers fuel rest).map (fun r => (JsVal.obj (r.1.foldl setProp []), r.2))
      else if u = 116 then (dropLit (js "true") (u :: rest)).map (fun r => (JsVal.bool true, r))
      else if u = 102 then (dropLit (js "false") (u :: rest)).map (fun r => (JsVal.bool false, r))
      else if u = 110 then (dropLit (js "null") (u :: rest)).map (fun r => (JsVal.null, r))
      else (scanNumber (u :: rest)).map (fun r => (JsVal.num r.1, r.2))
/-- Reads the elements of an array up to and including the closing bracket. -/
def parseElements : Nat → JsString → Option (List JsVal × JsString)
  | 0, _ => none
  | fuel + 1, cs =>
    match parseValue fuel cs with
    | none => none
    | some (v, rest) =>
      match skipWs rest with
      | [] => none
      | u :: rest1 =>
        if u = 44 then (parseElements fuel rest1).map (fun r => (v :: r.1, r.2))
        else if u = 93 then some ([v], rest1)
        else none
/-- Reads the members of an object up to and including the closing brace. -/
def parseMembers : Nat → JsString → Option (List (JsString × JsVal) × JsString)
  | 0, _ => none
  | fuel + 1, cs =>
    match skipWs cs with
    | [] => none
    | q :: rest =>
      if q = 34 then
        match parseStringBody rest with
        | none => none
        | some (key, rest1) =>
          match skipWs rest1 with
          | [] => none
          | c :: rest2 =>
            if c = 58 then
              match parseValue fuel rest2 with
              | none => none
              | some (v, rest3) =>
                match skipWs rest3 with
                | [] => none
                | u :: rest4 =>
                  if u = 44 then
                    (parseMembers fuel rest4).map (fun r => ((key, v) :: r.1, r.2))
                  else if u = 125 then some ([(key, v)], rest4)
                  else none
            else none
      else none
end

/-- The call `JSON.parse(text)`: `none` stands for the SyntaxError it throws.
Every nested call consumes a code unit, so the length of the text bounds the
nesting. -/
def JSON.parse (text : JsString) : Option JsVal :=
  match parseValue (2 * text.length + 2) text with
  | none => none
  | some (v, rest) => if skipWs rest = [] then some v else none

/-! ## The persistence functions on the raw storage slot -/

/-- The variables `loadTabsFromLocal` reads and writes.  It assigns whatever
array `JSON.parse` returned, so here the in-memory list holds parsed values. -/
structure Store where
  /-- The `monaco-tabs` slot of `localStorage`: `none` when the key is absent. -/
  storage : Option JsString
  tabs : List JsVal
  tabCounter : Nat

/-- The function `loadTabsFromLocal`: the returned flag and the variables after
the call. -/
def loadTabsFromLocal (st : Store) : Bool × Store :=
  match st.storage with
  | none => (false, st)
  | some saved =>
    if saved = [] then (false, st)
    else
      match JSON.parse saved with
      | none => (false, st)
      | some (JsVal.arr loadedTabs) =>
        if loadedTabs.length ≠ 0 then
          (true, { st with tabs := loadedTabs, tabCounter := loadedTabs.length + 1 })
        else (false, st)
      | some _ => (false, st)

/-- Reads a parsed array as tab records, when every element is one. -/
def toTabs? : List JsVal → Option (List Tab)
  | [] => some []
  | v :: vs =>
    match v.toTab?, toTabs? vs with
    | some t, some ts => some (t :: ts)
    | _, _ => none

/-! ## The session state -/

/-- The module-level variables of `script.js` with the parts of the page they
act on.  The tab bar drawn by `renderTabs` is a function of `tabs` and
`currentTabId` and is not stored. -/
structure State where
  tabs : List Tab
  /-- The variable `currentTabId`: `none` is its initial `null`. -/
  currentTabId : Option JsString
  tabCounter : Nat
  /-- The text held by the editor widget (`editor.getValue()`). -/
  editor : JsString
  /-- The `onDidChangeModelContent` callback is registered. -/
  listening : Bool
  /-- The `monaco-tabs` slot of `localStorage`. -/
  storage : Option JsString
  /-- The context menu carries the class `hidden`. -/
  menuHidden : Bool
  /-- The attribute `contextMenu.dataset.tabId`: `none` while it was never set. -/
  menuTabId : Option JsString
  menuLeft : Int
  menuTop : Int
  /-- The downloads triggered so far: the `download` name and the blob content. -/
  downloads : List (JsString × JsString)
  /-- The `alert` messages shown so far. -/
  alerts : List JsString
  deriving DecidableEq, Repr

/-- The test `t.id === key` of the `tabs.find` calls, `key` being a string or
`null`/`undefined`. -/
def hasId (key : Option JsString) (t : Tab) : Bool := decide (some t.id = key)

/-- The call `tabs.find(t => t.id === key)`: the first tab with that id. -/
def findTab (tabs : List Tab) (key : Option JsString) : Option Tab :=
  tabs.find? (hasId key)

/-- The call `tabs.findIndex(t => t.id === id)`: `none` stands for `-1`. -/
def findIndex (id : JsString) : List Tab → Option Nat
  | [] => none
  | t :: ts => if t.id = id then some 0 else (findIndex id ts).map (fun i => i + 1)

/-- An assignment to a field of the tab object `tabs.find` returned: the first
tab with that id is changed in place. -/
def updateFirst (key : Option JsString) (f : Tab → Tab) : List Tab → List Tab
  | [] => []
  | t :: ts => if hasId key t then f t :: ts else t :: updateFirst key f ts

/-- The function `createTab(name, content)`; the generated id is an input. -/
def createTab (s : State) (id name content : JsString) : State :=
  { s with tabs := s.tabs ++ [{ id := id, name := name, content := content }] }

/-- The function `saveTabsToLocal`. -/
def saveTabsToLocal (s : State) : State :=
  { s with storage := some (JSON.stringify s.tabs) }

/-- The function `saveCurrentTabContent`. -/
def saveCurrentTabContent (s : State) : State :=
  match findTab s.tabs s.currentTabId with
  | some _ =>
    saveTabsToLocal
      { s with tabs := updateFirst s.currentTabId (fun t => { t with content := s.editor }) s.tabs }
  | none => s

/-- A change of the editor text, by `editor.setValue` or by typing: the widget
reports it to the registered callback, which runs `saveCurrentTabContent`. -/
def editorSetValue (s : State) (text : JsString) : State :=
  if s.listening then saveCurrentTabContent { s with editor := text }
  else { s with editor := text }

/-- The function `switchTab`. -/
def switchTab (s : State) (id : JsString) : State :=
  if s.currentTabId = some id then s
  else
    let s1 := saveCurrentTabContent s
    let s2 := { s1 with currentTabId := some id }
    match findTab s2.tabs (some id) with
    | some tab => editorSetValue s2 tab.content
    | none => s2

/-- The function `closeTab`.  The result `none` stands for the TypeError of
`nextTab.id` on an undefined `nextTab`. -/
def closeTab (s : State) (id : JsString) : Option State :=
  if s.tabs.length ≤ 1 then some s
  else
    match s.tabs[0]? with
    | none => none
    | some first =>
      if id = first.id then some s
      else
        match findIndex id s.tabs with
        | none => some s
        | some index =>
          let s1 := { s with tabs := s.tabs.eraseIdx index }
          let closed : Option State :=
            if s1.currentTabId = some id then
              let nextTab : Option Tab :=
                match s1.tabs[index]? with
                | some t => some t
                | none => if index = 0 then none else s1.tabs[index - 1]?
              match nextTab with
              | some t => some (editorSetValue { s1 with currentTabId := some t.id } t.content)
              | none => none
            else some s1
          closed.map saveTabsToLocal

/-- The decimal digits a template literal writes for a counter value. -/
def decimal (n : Nat) : JsString := js (Nat.repr n)

/-- The function `addNewTab`; the id `createTab` generates is an input. -/
def addNewTab (s : State) (id : JsString) : State :=
  let s1 := saveCurrentTabContent s
  let name := js "Script #" ++ decimal s1.tabCounter
  let s2 := createTab { s1 with tabCounter := s1.tabCounter + 1 } id name []
  let s3 := { s2 with currentTabId := some id }
  saveTabsToLocal (editorSetValue s3 [])

/-! ## The context menu and the export -/

/-- The function `openContextMenu`. -/
def openContextMenu (s : State) (x y : Int) (tabId : JsString) : State :=
  { s with menuLeft := x, menuTop := y, menuHidden := false, menuTabId := some tabId }

/-- The function `closeContextMenu`. -/
def closeContextMenu (s : State) : State :=
  { s with menuHidden := true, menuTabId := some [] }

/-- White space and line terminators as `String.prototype.trim` removes them. -/
def isTrimSpace (u : Nat) : Bool :=
  (9 ≤ u && u ≤ 13) || u = 32 || u = 0xA0 || u = 0x1680
    || (0x2000 ≤ u && u ≤ 0x200A) || u = 0x2028 || u = 0x2029
    || u = 0x202F || u = 0x205F || u = 0x3000 || u = 0xFEFF

/-- The method `String.prototype.trim`. -/
def trim (s : JsString) : JsString :=
  ((s.dropWhile isTrimSpace).reverse.dropWhile isTrimSpace).reverse

/-- The click handler of the Rename entry; `answer` is what `prompt` returns
when it is shown, `none` for a cancelled prompt. -/
def renameOptionClick (s : State) (answer : Option JsString) : State :=
  let s1 := closeContextMenu s
  let tabId := s1.menuTabId
  match findTab s1.tabs tabId with
  | none => s1
  | some _ =>
    match answer with
    | none => s1
    | some newName =>
      if newName ≠ [] ∧ trim newName ≠ [] then
        saveTabsToLocal
          { s1 with tabs := updateFirst tabId (fun t => { t with name := trim newName }) s1.tabs }
      else s1

/-- The function `saveTabToFile`: one download under `fullPath` with the
content of the tab, then the confirmation alert. -/
def saveTabToFile (s : State) (tab : Tab) : State :=
  { s with
    downloads := s.downloads ++ [(fullPath tab.name, tab.content)]
    alerts := s.alerts ++
      [js "Saved \"" ++ tab.name ++ js "\" as \"" ++ fullPath tab.name ++ js "\""] }

/-- The click handler of the Save entry. -/
def saveOptionClick (s : State) : State :=
  let s1 := closeContextMenu s
  let tabId := s1.menuTabId
  match findTab s1.tabs tabId with
  | none => s1
  | some tab => saveTabToFile s1 tab

/-! ## Start of the page -/

/-- The state before the callback of `require` runs: the module-level initial
values, the editor created with the value `''`, the stored slot as found, the
context menu hidden as the page first shows it. -/
def initial (storage : Option JsString) : State :=
  { tabs := [], currentTabId := none, tabCounter := 1, editor := [], listening := false,
    storage := storage, menuHidden := true, menuTabId := none, menuLeft := 0, menuTop := 0,
    downloads := [], alerts := [] }

/-- The text of the default tab. -/
def defaultContent : JsString := js "// Start coding here...\n"

/-- The callback of `require` from "Load saved tabs or create default tab" on;
`freshId` is the id `createTab` generates if it is called.  The result is
`none` when the stored array holds something that is not a tab record, which
the typed tab list cannot hold. -/
def startup (storage : Option JsString) (freshId : JsString) : Option State :=
  let s0 := initial storage
  let loaded := loadTabsFromLocal { storage := storage, tabs := [], tabCounter := s0.tabCounter }
  let ready : Option State :=
    if loaded.1 = false then
      let name := js "Script #" ++ decimal s0.tabCounter
      let s1 := createTab { s0 with tabCounter := s0.tabCounter + 1 } freshId name defaultContent
      some { s1 with currentTabId := some freshId }
    else
      match toTabs? loaded.2.tabs with
      | some (t :: ts) =>
        some { s0 with tabs := t :: ts, tabCounter := loaded.2.tabCounter,
                       currentTabId := some t.id }
      | _ => none
  match ready with
  | none => none
  | some s2 =>
    match s2.currentTabId with
    | none => none
    | some cur => some { switchTab s2 cur with listening := true }

/-! ## Vocabulary of the statements and sample data -/

/-- The image of one code unit in the words of the specification: an ASCII
letter goes to its lower-case form, an ASCII digit stays, everything else
becomes `_`. -/
def sanitizedImage (u : Nat) : Nat :=
  if isUpper u then u + 32
  else if isLower u then u
  else if isDigit u then u
  else underscore

/-- A first tab. -/
def tabA : Tab := { id := js "tab-a", name := js "A", content := js "alpha" }

/-- A second tab. -/
def tabB : Tab := { id := js "tab-b", name := js "B", content := js "beta" }

/-- A third tab. -/
def tabC : Tab := { id := js "tab-c", name := js "C", content := js "gamma" }

/-- A running session over the given tabs with the given active id and editor
text, the callback registered, the slot holding the list, the menu hidden. -/
def session (tabs : List Tab) (cur : JsString) (text : JsString) : State :=
  { tabs := tabs, currentTabId := some cur, tabCounter := tabs.length + 1, editor := text,
    listening := true, storage := some (JSON.stringify tabs), menuHidden := true,
    menuTabId := some [], menuLeft := 0, menuTop := 0, downloads := [], alerts := [] }

/-- The session right after a start without stored tabs, as `startup` leaves
it: one default tab, active, the editor still empty. -/
def freshSession (id : JsString) : State :=
  { initial none with
    tabs := [{ id := id, name := js "Script #1", content := defaultContent }],
    currentTabId := some id, tabCounter := 2, listening := true }

/-- The scenario of the specification: a fresh session, two tabs added, the
text `x=1` typed into the third. -/
def scenario : State :=
  editorSetValue (addNewTab (addNewTab (freshSession (js "t1")) (js "t2")) (js "t3")) (js "x=1")

/-- One call in a sequence of `createTab`, `addNewTab` and `closeTab` calls, the
ids `createTab` generates being inputs. -/
inductive Op where
  | createTab (id name content : JsString) : Op
  | addNewTab (id : JsString) : Op
  | closeTab (id : JsString) : Op

/-- The id a call gives to the tab it creates, if it creates one. -/
def Op.newId : Op → Option JsString
  | .createTab id _ _ => some id
  | .addNewTab id => some id
  | .closeTab _ => none

/-- Runs one call; `none` when it throws. -/
def step (s : State) : Op → Option State
  | .createTab id name content => some (createTab s id name content)
  | .addNewTab id => some (addNewTab s id)
  | .closeTab id => closeTab s id

/-- Runs a sequence of calls from left to right; `none` when one throws. -/
def run : State → List Op → Option State
  | s, [] => some s
  | s, op :: ops =>
    match step s op with
    | none => none
    | some s1 => run s1 ops

/-- The list is non-empty and its first tab has the id and name of `first`. -/
def HeadKept (first : Tab) (l : List Tab) : Prop :=
  ∃ f r, l = f :: r ∧ f.id = first.id ∧ f.name = first.name

/-- The first tab is `first`, no other tab carries its id, and the editor holds
its content whenever it is the active tab. -/
def HeadSame (first : Tab) (s : State) : Prop :=
  ∃ r, s.tabs = first :: r ∧ first.id ∉ r.map Tab.id
    ∧ (s.currentTabId = some first.id → s.editor = first.content)

/-- C1 in the words of the claim: the sequence runs, the list stays non-empty
and its first tab is the tab that was first before, content included. -/
def FirstTabUnchanged (s : State) (ops : List Op) : Prop :=
  ∃ s2, run s ops = some s2 ∧ s2.tabs ≠ [] ∧ s2.tabs.head? = s.tabs.head?

/-- The calls used to exercise C1 on `[A, B, C]`. -/
def sampleOps : List Op :=
  [Op.closeTab tabB.id, Op.addNewTab (js "tab-d"), Op.closeTab tabA.id,
    Op.createTab (js "tab-e") (js "E") (js "eps"), Op.closeTab (js "tab-d"),
    Op.closeTab tabC.id, Op.closeTab (js "tab-e"), Op.closeTab (js "tab-e")]

/-! ## The download name (C6) -/

theorem lowerUnit_replace (u : Nat) :
    lowerUnit (if matchesNonAlnum u then underscore else u) = sanitizedImage u := by
  unfold sanitizedImage lowerUnit matchesNonAlnum
  by_cases hU : isUpper u = true
  · simp [hU]
  · by_cases hL : isLower u = true
    · simp [hU, hL]
    · by_cases hD : isDigit u = true
      · simp [hU, hL, hD]
      · simp [hU, hL, hD]
        decide

theorem sanitizedImage_class (u : Nat) :
    isLower (sanitizedImage u) = true ∨ isDigit (sanitizedImage u) = true
      ∨ sanitizedImage u = underscore := by
  unfold sanitizedImage
  by_cases hU : isUpper u = true
  · left
    simp only [isUpper, Bool.and_eq_true, decide_eq_true_eq] at hU
    simp only [hU, isUpper, isLower, Bool.and_eq_true, decide_eq_true_eq, and_self, if_true]
    omega
  · by_cases hL : isLower u = true
    · simp [hU, hL]
    · by_cases hD : isDigit u = true
      · simp [hU, hL, hD]
      · simp [hU, hL, hD]

/-- C6: the download name `saveTabToFile` composes for a tab named `n` is
`MonacoScripts/`, then the code-unit-wise image of `n` (ASCII letters to lower
case, ASCII digits kept, everything else `_`), then `.js`; the image has the
length of `n` and consists of `a`-`z`, `0`-`9` and `_` only; the name
`My Script!` gives `MonacoScripts/my_script_.js`. -/
theorem saveTabToFile_download_name (s : State) (tab : Tab) :
    (saveTabToFile s tab).downloads
        = s.downloads ++
            [(js "MonacoScripts/" ++ tab.name.map sanitizedImage ++ js ".js", tab.content)]
      ∧ (tab.name.map sanitizedImage).length = tab.name.length
      ∧ (∀ u ∈ tab.name.map sanitizedImage,
          isLower u = true ∨ isDigit u = true ∨ u = underscore)
      ∧ fullPath (js "My Script!") = js "MonacoScripts/my_script_.js" := by
  refine ⟨?_, by simp, ?_, by decide⟩
  · have h : js "MonacoScripts/" = js "MonacoScripts" ++ js "/" := by decide
    have hf : (lowerUnit ∘ fun u => if matchesNonAlnum u = true then underscore else u)
        = sanitizedImage := funext lowerUnit_replace
    simp only [saveTabToFile, fullPath, fileName, toLowerCase, replaceNonAlnum, List.map_map, h,
      List.append_assoc, hf]
  · intro u hu
    obtain ⟨v, _, rfl⟩ := List.mem_map.mp hu
    exact sanitizedImage_class v

/-! ## Loading fails soft (C4) -/

/-- C4: `loadTabsFromLocal` returns false and changes neither the in-memory
list nor `tabCounter` when the stored value is absent, the empty string, not
parseable, parsed to something that is not an array, or parsed to the empty
array; it returns true exactly when the stored value parses to a non-empty
array. -/
theorem loadTabsFromLocal_fails_soft (st : Store) :
    ((st.storage = none ∨ st.storage = some [] ∨
        (∃ saved, st.storage = some saved ∧
          (JSON.parse saved = none
            ∨ (∃ v, JSON.parse saved = some v ∧ ∀ items, v ≠ JsVal.arr items)
            ∨ JSON.parse saved = some (JsVal.arr [])))) →
      loadTabsFromLocal st = (false, st))
    ∧ ((loadTabsFromLocal st).1 = true ↔
        ∃ saved x xs, st.storage = some saved ∧ JSON.parse saved = some (JsVal.arr (x :: xs)))
    ∧ ((loadTabsFromLocal st).1 = false → (loadTabsFromLocal st).2 = st) := by
  have hempty : JSON.parse [] = none := by rfl
  refine ⟨?_, ?_, ?_⟩
  · rintro (h | h | ⟨saved, h, hp | ⟨v, hp, hv⟩ | hp⟩)
    · simp [loadTabsFromLocal, h]
    · simp [loadTabsFromLocal, h]
    · simp only [loadTabsFromLocal, h, hp]; split <;> rfl
    · simp only [loadTabsFromLocal, h, hp]
      cases v with
      | arr items => exact absurd rfl (hv items)
      | _ => split <;> rfl
    · simp only [loadTabsFromLocal, h, hp]; split <;> simp
  · unfold loadTabsFromLocal
    cases hs : st.storage with
    | none => simp
    | some saved =>
      by_cases he : saved = []
      · subst he; simp [hempty]
      · simp only [he, if_false]
        cases hp : JSON.parse saved with
        | none => simp [hp]
        | some v =>
          cases v with
          | arr items =>
            cases items with
            | nil => simp [hp]
            | cons x xs => simp [hp]
          | _ => simp [hp]
  · unfold loadTabsFromLocal
    cases hs : st.storage with
    | none => simp
    | some saved =>
      by_cases he : saved = []
      · simp [he]
      · simp only [he, if_false]
        cases hp : JSON.parse saved with
        | none => simp
        | some v =>
          cases v with
          | arr items =>
            cases items with
            | nil => simp
            | cons x xs => simp
          | _ => simp

set_option maxRecDepth 100000 in
/-- C4 on a truncated array text: the load returns false and the list in memory
and the counter stay as they were. -/
theorem loadTabsFromLocal_fails_soft_witness :
    loadTabsFromLocal { storage := some (js "[1,2"), tabs := [tabA.toJson], tabCounter := 2 }
      = (false, { storage := some (js "[1,2"), tabs := [tabA.toJson], tabCounter := 2 }) :=
  (loadTabsFromLocal_fails_soft
      { storage := some (js "[1,2"), tabs := [tabA.toJson], tabCounter := 2 }).1
    (Or.inr (Or.inr ⟨js "[1,2", rfl, Or.inl (by rfl)⟩))

/-! ## Round trip through the storage slot -/

/-- Reading back a hexadecimal digit written by `hexDigit`. -/
theorem hexVal_hexDigit (n : Nat) (h : n < 16) : hexVal? (hexDigit n) = some n := by
  interval_cases n <;> rfl

/-- The four digits of `unicodeEscape` read back as the code unit. -/
theorem hex4_unicodeEscape (u : Nat) (hu : u < 65536) :
    hex4 (hexDigit (u / 4096)) (hexDigit (u / 256 % 16)) (hexDigit (u / 16 % 16))
      (hexDigit (u % 16)) = some u := by
  unfold hex4
  rw [hexVal_hexDigit _ (by omega), hexVal_hexDigit _ (by omega), hexVal_hexDigit _ (by omega),
    hexVal_hexDigit _ (by omega)]
  simp only [Option.some.injEq]
  omega

theorem parseStringBody_plain (u : Nat) (rest : JsString) (h1 : u ≠ 34)
    (h2 : u ≠ 92) (h3 : ¬ u < 32) :
    parseStringBody (u :: rest) = (parseStringBody rest).map (fun r => (u :: r.1, r.2)) := by
  rw [parseStringBody.eq_def]
  simp [h1, h2, h3]

theorem parseStringBody_unicodeEscape (u : Nat) (hu : u < 65536) (rest : JsString) :
    parseStringBody (unicodeEscape u ++ rest)
      = (parseStringBody rest).map (fun r => (u :: r.1, r.2)) := by
  simp only [unicodeEscape, List.cons_append, List.nil_append]
  rw [parseStringBody.eq_def]
  simp [hex4_unicodeEscape u hu]

/-- Reading back quoted text up to the closing quote gives the string, also when
the text starts in the middle of a surrogate pair. -/
theorem parseStringBody_quoteFrom (s : JsString) :
    ∀ (b : Bool) (rest : JsString), (b = true → startsWithLow s = true) →
      parseStringBody (quoteFrom b s ++ 34 :: rest) = some (s, rest) := by
  induction s with
  | nil =>
    intro b rest _
    cases b <;> simp only [quoteFrom, List.nil_append] <;> rw [parseStringBody.eq_def] <;> simp
  | cons u r ih =>
    intro b rest hb
    cases b with
    | true =>
      have hl : isLowSurrogate u = true := hb rfl
      simp only [isLowSurrogate, Bool.and_eq_true, decide_eq_true_eq] at hl
      simp only [quoteFrom, List.cons_append]
      rw [parseStringBody_plain _ _ (by omega) (by omega) (by omega), ih false rest (by simp)]
      rfl
    | false =>
      have esc : ∀ (e v : Nat), unescape e = some v → e ≠ 117 →
          parseStringBody (92 :: e :: (quoteFrom false r ++ 34 :: rest)) = some (v :: r, rest) := by
        intro e v he hne
        rw [parseStringBody.eq_def]
        simp [he, hne, ih false rest]
      have uni : u < 65536 →
          parseStringBody (unicodeEscape u ++ quoteFrom false r ++ 34 :: rest)
            = some (u :: r, rest) := by
        intro hu
        rw [List.append_assoc, parseStringBody_unicodeEscape u hu, ih false rest (by simp)]
        rfl
      simp only [quoteFrom]
      by_cases h8 : u = 8
      · rw [if_pos h8, List.cons_append, List.cons_append]; subst h8
        exact esc 98 8 rfl (by decide)
      rw [if_neg h8]
      by_cases h9 : u = 9
      · rw [if_pos h9, List.cons_append, List.cons_append]; subst h9
        exact esc 116 9 rfl (by decide)
      rw [if_neg h9]
      by_cases h10 : u = 10
      · rw [if_pos h10, List.cons_append, List.cons_append]; subst h10
        exact esc 110 10 rfl (by decide)
      rw [if_neg h10]
      by_cases h12 : u = 12
      · rw [if_pos h12, List.cons_append, List.cons_append]; subst h12
        exact esc 102 12 rfl (by decide)
      rw [if_neg h12]
      by_cases h13 : u = 13
      · rw [if_pos h13, List.cons_append, List.cons_append]; subst h13
        exact esc 114 13 rfl (by decide)
      rw [if_neg h13]
      by_cases h34 : u = 34
      · rw [if_pos h34, List.cons_append, List.cons_append]; subst h34
        exact esc 34 34 rfl (by decide)
      rw [if_neg h34]
      by_cases h92 : u = 92
      · rw [if_pos h92, List.cons_append, List.cons_append]; subst h92
        exact esc 92 92 rfl (by decide)
      rw [if_neg h92]
      by_cases h32 : u < 32
      · rw [if_pos h32]
        exact uni (by omega)
      rw [if_neg h32]
      by_cases hhi : isHighSurrogate u = true
      · rw [if_pos hhi]
        by_cases hlow : startsWithLow r = true
        · rw [if_pos hlow, List.cons_append,
            parseStringBody_plain _ _ h34 h92 h32, ih true rest (fun _ => hlow)]
          rfl
        · rw [if_neg hlow]
          simp only [isHighSurrogate, Bool.and_eq_true, decide_eq_true_eq] at hhi
          exact uni (by omega)
      rw [if_neg hhi]
      by_cases hlo : isLowSurrogate u = true
      · rw [if_pos hlo]
        simp only [isLowSurrogate, Bool.and_eq_true, decide_eq_true_eq] at hlo
        exact uni (by omega)
      rw [if_neg hlo, List.cons_append,
        parseStringBody_plain _ _ h34 h92 h32, ih false rest (by simp)]
      rfl

/-- Reading back the quoted text of a string gives the string. -/
theorem parseStringBody_quoteBody (s rest : JsString) :
    parseStringBody (quoteBody s ++ 34 :: rest) = some (s, rest) :=
  parseStringBody_quoteFrom s false rest (by simp)

theorem skipWs_cons (u : Nat) (rest : JsString) (h : isWs u = false) :
    skipWs (u :: rest) = u :: rest := by
  simp [skipWs, h]

theorem parseValue_string (f : Nat) (v rest : JsString) :
    parseValue (f + 1) (34 :: (quoteBody v ++ 34 :: rest)) = some (JsVal.str v, rest) := by
  rw [parseValue, skipWs_cons _ _ (by decide)]
  simp [parseStringBody_quoteBody]

theorem parseMembers_more (f : Nat) (k v rest : JsString) :
    parseMembers (f + 2) (34 :: (quoteBody k ++ 34 :: 58 :: 34 :: (quoteBody v ++ 34 :: 44 :: rest)))
      = (parseMembers (f + 1) rest).map (fun r => ((k, JsVal.str v) :: r.1, r.2)) := by
  rw [parseMembers, skipWs_cons _ _ (by decide)]
  simp only [if_true, parseStringBody_quoteBody]
  rw [skipWs_cons _ _ (by decide)]
  simp only [if_true, parseValue_string]
  rw [skipWs_cons _ _ (by decide)]
  simp

theorem parseMembers_last (f : Nat) (k v rest : JsString) :
    parseMembers (f + 2) (34 :: (quoteBody k ++ 34 :: 58 :: 34 :: (quoteBody v ++ 34 :: 125 :: rest)))
      = some ([(k, JsVal.str v)], rest) := by
  rw [parseMembers, skipWs_cons _ _ (by decide)]
  simp only [if_true, parseStringBody_quoteBody]
  rw [skipWs_cons _ _ (by decide)]
  simp only [if_true, parseValue_string]
  rw [skipWs_cons _ _ (by decide)]
  simp

theorem stringifyTab_append (t : Tab) (rest : JsString) :
    stringifyTab t ++ rest
      = 123 :: 34 :: (quoteBody (js "id") ++ 34 :: 58 :: 34 :: (quoteBody t.id ++ 34 :: 44 ::
          34 :: (quoteBody (js "name") ++ 34 :: 58 :: 34 :: (quoteBody t.name ++ 34 :: 44 ::
          34 :: (quoteBody (js "content") ++ 34 :: 58 :: 34 :: (quoteBody t.content ++ 34 :: 125 ::
          rest)))))) := by
  have h1 : js "\x7b\"id\":" = 123 :: 34 :: (quoteBody (js "id") ++ [34, 58]) := by decide
  have h2 : js ",\"name\":" = 44 :: 34 :: (quoteBody (js "name") ++ [34, 58]) := by decide
  have h3 : js ",\"content\":" = 44 :: 34 :: (quoteBody (js "content") ++ [34, 58]) := by decide
  have h4 : js "\x7d" = [125] := by decide
  simp only [stringifyTab, quote, h1, h2, h3, h4, List.append_assoc, List.cons_append,
    List.nil_append]

/-- Reading back the text of one tab record gives its object. -/
theorem parseValue_stringifyTab (t : Tab) (n : Nat) (rest : JsString) :
    parseValue (n + 5) (stringifyTab t ++ rest) = some (t.toJson, rest) := by
  rw [stringifyTab_append, parseValue, skipWs_cons _ _ (by decide)]
  simp only [Nat.reduceEqDiff, if_false]
  rw [skipWs_cons _ _ (by decide)]
  simp only [Nat.reduceEqDiff, if_false]
  rw [parseMembers_more, parseMembers_more, parseMembers_last]
  have k1 : ¬ js "id" = js "name" := by decide
  have k2 : ¬ js "id" = js "content" := by decide
  have k3 : ¬ js "name" = js "content" := by decide
  simp [Tab.toJson, setProp, k1, k2, k3]

/-- Reading back the comma-separated records up to the closing bracket. -/
theorem parseElements_stringifyItems (ts : List Tab) :
    ∀ (t : Tab) (n : Nat) (rest : JsString),
      parseElements (n + ts.length + 6) (stringifyItems (t :: ts) ++ 93 :: rest)
        = some ((t :: ts).map Tab.toJson, rest) := by
  induction ts with
  | nil =>
    intro t n rest
    simp only [stringifyItems, List.length_nil, Nat.add_zero]
    rw [parseElements, parseValue_stringifyTab]
    dsimp only
    rw [skipWs_cons _ _ (by decide)]
    simp
  | cons t2 ts ih =>
    intro t n rest
    have hc : js "," = [44] := by decide
    simp only [stringifyItems, hc, List.append_assoc, List.cons_append, List.nil_append,
      List.length_cons]
    rw [show n + (ts.length + 1) + 6 = (n + ts.length + 6) + 1 by omega, parseElements,
      show n + ts.length + 6 = (n + ts.length + 1) + 5 by omega, parseValue_stringifyTab]
    dsimp only
    rw [skipWs_cons _ _ (by decide)]
    simp only [if_true]
    rw [show n + ts.length + 1 + 5 = n + ts.length + 6 by omega, ih t2 n rest]
    rfl

theorem stringifyItems_head (t : Tab) (ts : List Tab) (rest : JsString) :
    ∃ r, stringifyItems (t :: ts) ++ rest = 123 :: r := by
  cases ts with
  | nil =>
    simp only [stringifyItems]
    rw [stringifyTab_append]
    exact ⟨_, rfl⟩
  | cons t2 ts =>
    simp only [stringifyItems, List.append_assoc]
    rw [stringifyTab_append]
    exact ⟨_, rfl⟩

theorem stringifyTab_length (t : Tab) : 3 ≤ (stringifyTab t).length := by
  have h := congrArg List.length (stringifyTab_append t [])
  simp only [List.append_nil, List.length_cons, List.length_append] at h
  omega

theorem stringifyItems_length (ts : List Tab) : 3 * ts.length ≤ (stringifyItems ts).length := by
  induction ts with
  | nil => simp
  | cons t ts ih =>
    cases ts with
    | nil =>
      have := stringifyTab_length t
      simpa [stringifyItems] using this
    | cons t2 ts =>
      have := stringifyTab_length t
      simp only [stringifyItems, List.length_append, List.length_cons] at ih ⊢
      omega

/-- Parsing the text `JSON.stringify` writes for a tab list gives back the
array of the tab objects, in order. -/
theorem parse_stringify (tabs : List Tab) :
    JSON.parse (JSON.stringify tabs) = some (JsVal.arr (tabs.map Tab.toJson)) := by
  have hl : js "[" = [91] := by decide
  have hr : js "]" = [93] := by decide
  cases tabs with
  | nil => rfl
  | cons t ts =>
    have hlen := stringifyItems_length (t :: ts)
    unfold JSON.parse JSON.stringify
    simp only [hl, hr, List.cons_append, List.nil_append, List.length_cons, List.length_append,
      List.length_nil] at hlen ⊢
    obtain ⟨n, hn⟩ : ∃ n, 2 * ((stringifyItems (t :: ts)).length + (0 + 1) + 1) + 2
        = (n + ts.length + 6) + 1 := ⟨2 * ((stringifyItems (t :: ts)).length + (0 + 1) + 1) + 2
          - (ts.length + 7), by omega⟩
    rw [hn, parseValue, skipWs_cons _ _ (by decide)]
    simp only [Nat.reduceEqDiff, if_false, if_true]
    obtain ⟨r, hr2⟩ := stringifyItems_head t ts [93]
    have hsk : skipWs (stringifyItems (t :: ts) ++ [93]) = 123 :: r := by
      rw [hr2]; exact skipWs_cons _ _ (by decide)
    rw [hsk]
    simp only [Nat.reduceEqDiff, if_false]
    rw [parseElements_stringifyItems ts t n []]
    simp [skipWs]

theorem toTabs_toJson (tabs : List Tab) : toTabs? (tabs.map Tab.toJson) = some tabs := by
  induction tabs with
  | nil => rfl
  | cons t ts ih => simp [toTabs?, ih, Tab.toJson, JsVal.toTab?]

theorem stringify_ne_nil (tabs : List Tab) : JSON.stringify tabs ≠ [] := by
  have hl : js "[" = [91] := by decide
  simp [JSON.stringify, hl]

/-- C3: after `saveTabsToLocal` on a non-empty tab list, `loadTabsFromLocal`
(whatever the in-memory list and counter are by then) returns true and sets the
in-memory list to the tab objects of the saved list, in order, which read back
as exactly the saved id/name/content triples; `tabCounter` becomes the length
plus one. -/
theorem load_after_save (s : State) (hne : s.tabs ≠ []) (mem : List JsVal) (counter : Nat) :
    loadTabsFromLocal
        { storage := (saveTabsToLocal s).storage, tabs := mem, tabCounter := counter }
      = (true, { storage := (saveTabsToLocal s).storage, tabs := s.tabs.map Tab.toJson,
                 tabCounter := s.tabs.length + 1 })
    ∧ toTabs? (s.tabs.map Tab.toJson) = some s.tabs := by
  refine ⟨?_, toTabs_toJson s.tabs⟩
  have hlen : ¬ s.tabs.length = 0 := by
    intro h; exact hne (List.length_eq_zero.mp h)
  simp [loadTabsFromLocal, saveTabsToLocal, stringify_ne_nil, parse_stringify, hlen]

/-- The round trip of C3 on the list `[A, B]`, loaded into an empty page. -/
theorem load_after_save_witness :
    loadTabsFromLocal
        { storage := (saveTabsToLocal (session [tabA, tabB] tabA.id tabA.content)).storage,
          tabs := [], tabCounter := 1 }
      = (true, { storage := (saveTabsToLocal (session [tabA, tabB] tabA.id tabA.content)).storage,
                 tabs := [tabA.toJson, tabB.toJson], tabCounter := 3 })
    ∧ toTabs? [tabA.toJson, tabB.toJson] = some [tabA, tabB] :=
  load_after_save (session [tabA, tabB] tabA.id tabA.content) (by decide) [] 1

/-! ## Lookup and in-place update -/

theorem findTab_nil (key : Option JsString) : findTab [] key = none := rfl

theorem findTab_cons (key : Option JsString) (t : Tab) (ts : List Tab) :
    findTab (t :: ts) key = if hasId key t then some t else findTab ts key := by
  unfold findTab
  by_cases h : hasId key t = true
  · simp [List.find?, h]
  · simp [List.find?, h]

theorem hasId_some (id : JsString) (t : Tab) : hasId (some id) t = true ↔ t.id = id := by
  simp [hasId]

theorem hasId_of_find {tabs : List Tab} {key : Option JsString} {t : Tab}
    (h : findTab tabs key = some t) : some t.id = key := by
  have := List.find?_some h
  simpa [hasId] using this

theorem mem_of_find {tabs : List Tab} {key : Option JsString} {t : Tab}
    (h : findTab tabs key = some t) : t ∈ tabs :=
  List.mem_of_find?_eq_some h

theorem updateFirst_length (key : Option JsString) (f : Tab → Tab) (l : List Tab) :
    (updateFirst key f l).length = l.length := by
  induction l with
  | nil => rfl
  | cons t ts ih => unfold updateFirst; split <;> simp [ih]

theorem updateFirst_ids (key : Option JsString) (f : Tab → Tab) (hid : ∀ t, (f t).id = t.id)
    (l : List Tab) : (updateFirst key f l).map Tab.id = l.map Tab.id := by
  induction l with
  | nil => rfl
  | cons t ts ih => unfold updateFirst; split <;> simp [ih, hid]

/-- An in-place update that does not change the tab it finds changes nothing. -/
theorem updateFirst_fixed (key : Option JsString) (f : Tab → Tab) (l : List Tab)
    (h : ∀ t, findTab l key = some t → f t = t) : updateFirst key f l = l := by
  induction l with
  | nil => rfl
  | cons t ts ih =>
    unfold updateFirst
    by_cases ht : hasId key t = true
    · have := h t (by simp [findTab_cons, ht])
      simp [ht, this]
    · have hts : ∀ u, findTab ts key = some u → f u = u := by
        intro u hu
        exact h u (by simpa [findTab_cons, ht] using hu)
      simp [ht, ih hts]

theorem updateFirst_none (key : Option JsString) (f : Tab → Tab) (l : List Tab)
    (h : findTab l key = none) : updateFirst key f l = l :=
  updateFirst_fixed key f l (by simp [h])

theorem findTab_updateFirst_same (key : Option JsString) (f : Tab → Tab)
    (hid : ∀ t, (f t).id = t.id) (l : List Tab) :
    findTab (updateFirst key f l) key = (findTab l key).map f := by
  induction l with
  | nil => rfl
  | cons t ts ih =>
    unfold updateFirst
    by_cases ht : hasId key t = true
    · have hft : hasId key (f t) = true := by simpa [hasId, hid] using ht
      simp [findTab_cons, ht, hft]
    · simp [findTab_cons, ht, ih]

theorem findTab_updateFirst_other (key other : Option JsString) (f : Tab → Tab)
    (hid : ∀ t, (f t).id = t.id) (hne : other ≠ key) (l : List Tab) :
    findTab (updateFirst key f l) other = findTab l other := by
  induction l with
  | nil => rfl
  | cons t ts ih =>
    unfold updateFirst
    by_cases ht : hasId key t = true
    · have h1 : hasId other t = false := by
        simp only [hasId, decide_eq_true_eq] at ht
        simp only [hasId, decide_eq_false_iff_not]
        intro h; exact hne (h.symm.trans ht)
      have h2 : hasId other (f t) = false := by simpa [hasId, hid] using h1
      simp [findTab_cons, ht, h1, h2]
    · simp [findTab_cons, ht, ih]

theorem findTab_of_mem_nodup {l : List Tab} (hnd : (l.map Tab.id).Nodup) {t : Tab}
    (ht : t ∈ l) : findTab l (some t.id) = some t := by
  induction l with
  | nil => cases ht
  | cons u us ih =>
    simp only [List.map_cons, List.nodup_cons] at hnd
    rcases List.mem_cons.mp ht with rfl | hmem
    · simp [findTab_cons, hasId]
    · have hne : u.id ≠ t.id := by
        intro h
        exact hnd.1 (h ▸ List.mem_map_of_mem Tab.id hmem)
      simp [findTab_cons, hasId, hne, ih hnd.2 hmem]

theorem findTab_flush_other (key other : Option JsString) (x : JsString) (hne : other ≠ key)
    (l : List Tab) :
    findTab (updateFirst key (fun t => { t with content := x }) l) other = findTab l other :=
  findTab_updateFirst_other key other (fun t => { t with content := x }) (fun _ => rfl) hne l

theorem findTab_flush_same (key : Option JsString) (x : JsString) (l : List Tab) :
    findTab (updateFirst key (fun t => { t with content := x }) l) key
      = (findTab l key).map (fun t => { t with content := x }) :=
  findTab_updateFirst_same key (fun t => { t with content := x }) (fun _ => rfl) l

theorem flush_ids (key : Option JsString) (x : JsString) (l : List Tab) :
    (updateFirst key (fun t => { t with content := x }) l).map Tab.id = l.map Tab.id :=
  updateFirst_ids key (fun t => { t with content := x }) (fun _ => rfl) l

/-! ## What the flush and the editor callback do -/

theorem saveCurrentTabContent_none (s : State) (h : findTab s.tabs s.currentTabId = none) :
    saveCurrentTabContent s = s := by
  simp [saveCurrentTabContent, h]

theorem saveCurrentTabContent_some (s : State) {t : Tab}
    (h : findTab s.tabs s.currentTabId = some t) :
    saveCurrentTabContent s
      = saveTabsToLocal { s with
          tabs := updateFirst s.currentTabId (fun t => { t with content := s.editor }) s.tabs } := by
  simp [saveCurrentTabContent, h]

/-- When the editor already holds the content of the active tab, the flush only
rewrites the slot. -/
theorem saveCurrentTabContent_synced (s : State) {t : Tab}
    (h : findTab s.tabs s.currentTabId = some t) (hc : t.content = s.editor) :
    saveCurrentTabContent s = saveTabsToLocal s := by
  rw [saveCurrentTabContent_some s h, updateFirst_fixed]
  intro u hu
  rw [h] at hu
  cases hu
  cases t
  simp_all

/-- Loading the content of the active tab into the editor leaves the tabs as
they are, whether or not the callback runs. -/
theorem editorSetValue_synced (s : State) {t : Tab}
    (h : findTab s.tabs s.currentTabId = some t) :
    saveTabsToLocal (editorSetValue s t.content) = saveTabsToLocal { s with editor := t.content } := by
  unfold editorSetValue
  by_cases hl : s.listening = true
  · have h2 : findTab ({ s with editor := t.content } : State).tabs
        ({ s with editor := t.content } : State).currentTabId = some t := h
    rw [if_pos hl, saveCurrentTabContent_synced _ h2 rfl]
    rfl
  · rw [if_neg hl]

/-! ## Closing the active tab (C2) -/

theorem findIndex_getElem (l : List Tab) (hnd : (l.map Tab.id).Nodup) (i : Nat)
    (h : i < l.length) : findIndex (l[i]).id l = some i := by
  induction l generalizing i with
  | nil => cases h
  | cons t ts ih =>
    simp only [List.map_cons, List.nodup_cons] at hnd
    cases i with
    | zero => simp [findIndex]
    | succ j =>
      have hj : j < ts.length := by simpa using h
      have hne : t.id ≠ (ts[j]).id := by
        intro heq
        exact hnd.1 (heq ▸ List.mem_map_of_mem Tab.id (List.getElem_mem hj))
      simp [findIndex, hne, ih hnd.2 j hj]

theorem head_id_ne (l : List Tab) (hnd : (l.map Tab.id).Nodup) (i : Nat) (hi : 1 ≤ i)
    (h : i < l.length) (first : Tab) (hf : l[0]? = some first) : (l[i]).id ≠ first.id := by
  cases l with
  | nil => cases h
  | cons t ts =>
    simp only [List.getElem?_cons_zero, Option.some.injEq] at hf
    subst hf
    simp only [List.map_cons, List.nodup_cons] at hnd
    cases i with
    | zero => omega
    | succ j =>
      have hj : j < ts.length := by simpa using h
      intro heq
      apply hnd.1
      simp only [List.getElem_cons_succ] at heq
      exact heq ▸ List.mem_map_of_mem Tab.id (List.getElem_mem hj)

theorem nodup_eraseIdx (l : List Tab) (hnd : (l.map Tab.id).Nodup) (i : Nat) :
    ((l.eraseIdx i).map Tab.id).Nodup :=
  List.Nodup.sublist ((List.eraseIdx_sublist l i).map Tab.id) hnd

theorem closeTab_active_of_next (s : State) (id : JsString) (index : Nat) (first next : Tab)
    (hlen : ¬ s.tabs.length ≤ 1) (hf : s.tabs[0]? = some first) (hne : ¬ id = first.id)
    (hidx : findIndex id s.tabs = some index) (hact : s.currentTabId = some id)
    (hnext : (match (s.tabs.eraseIdx index)[index]? with
        | some t => some t
        | none => if index = 0 then none else (s.tabs.eraseIdx index)[index - 1]?) = some next)
    (hfind : findTab (s.tabs.eraseIdx index) (some next.id) = some next) :
    closeTab s id = some { s with
      tabs := s.tabs.eraseIdx index, currentTabId := some next.id, editor := next.content,
      storage := some (JSON.stringify (s.tabs.eraseIdx index)) } := by
  unfold closeTab
  simp only [hlen, if_false, hf, hne, hidx, hact, if_true, hnext, Option.map_some']
  have h := editorSetValue_synced
    ({ s with tabs := s.tabs.eraseIdx index, currentTabId := some next.id } : State) hfind
  rw [h]
  rfl

theorem closeTab_inactive (s : State) (id : JsString) (index : Nat) (first : Tab)
    (hlen : ¬ s.tabs.length ≤ 1) (hf : s.tabs[0]? = some first) (hne : ¬ id = first.id)
    (hidx : findIndex id s.tabs = some index) (hact : ¬ s.currentTabId = some id) :
    closeTab s id = some { s with
      tabs := s.tabs.eraseIdx index,
      storage := some (JSON.stringify (s.tabs.eraseIdx index)) } := by
  unfold closeTab
  simp only [hlen, if_false, hf, hne, hidx, hact, Option.map_some']
  rfl

/-- C2: in a tab list with pairwise distinct ids, closing the tab at an index
`i` with `1 ≤ i < n` removes exactly that tab and writes the list to the slot;
if it was the active tab, the tab originally at `i + 1` becomes active when
there is one, otherwise the tab originally at `i - 1`, and the editor is loaded
with the content of the new active tab; if it was not the active tab,
`currentTabId` and the editor stay as they were. -/
theorem closeTab_removes_and_activates (s : State) (i : Nat) (hi : 1 ≤ i)
    (hlt : i < s.tabs.length) (hnd : (s.tabs.map Tab.id).Nodup) :
    (s.currentTabId = some (s.tabs[i]).id →
      ∃ next, (if i + 1 < s.tabs.length then s.tabs[i + 1]? else s.tabs[i - 1]?) = some next ∧
        closeTab s (s.tabs[i]).id = some { s with
          tabs := s.tabs.eraseIdx i, currentTabId := some next.id, editor := next.content,
          storage := some (JSON.stringify (s.tabs.eraseIdx i)) })
    ∧ (s.currentTabId ≠ some (s.tabs[i]).id →
      closeTab s (s.tabs[i]).id = some { s with
        tabs := s.tabs.eraseIdx i,
        storage := some (JSON.stringify (s.tabs.eraseIdx i)) }) := by
  have h0 : 0 < s.tabs.length := by omega
  have hlen : ¬ s.tabs.length ≤ 1 := by omega
  have hf : s.tabs[0]? = some (s.tabs[0]) := List.getElem?_eq_getElem h0
  have hne := head_id_ne s.tabs hnd i hi hlt _ hf
  have hidx := findIndex_getElem s.tabs hnd i hlt
  refine ⟨fun hact => ?_, fun hact => closeTab_inactive s _ i _ hlen hf hne hidx hact⟩
  have hnd2 := nodup_eraseIdx s.tabs hnd i
  by_cases hs : i + 1 < s.tabs.length
  · have hget : (s.tabs.eraseIdx i)[i]? = some (s.tabs[i + 1]) := by
      rw [List.getElem?_eraseIdx_of_ge _ _ _ (Nat.le_refl i), List.getElem?_eq_getElem hs]
    refine ⟨s.tabs[i + 1], by rw [if_pos hs, List.getElem?_eq_getElem hs], ?_⟩
    apply closeTab_active_of_next s _ i _ _ hlen hf hne hidx hact
    · rw [hget]
    · exact findTab_of_mem_nodup hnd2 (List.getElem?_mem hget)
  · have hnone : (s.tabs.eraseIdx i)[i]? = none := by
      rw [List.getElem?_eraseIdx_of_ge _ _ _ (Nat.le_refl i)]
      exact List.getElem?_eq_none (by omega)
    have hp : i - 1 < s.tabs.length := by omega
    have hget : (s.tabs.eraseIdx i)[i - 1]? = some (s.tabs[i - 1]) := by
      rw [List.getElem?_eraseIdx_of_lt _ _ _ (by omega), List.getElem?_eq_getElem hp]
    refine ⟨s.tabs[i - 1], by rw [if_neg hs, List.getElem?_eq_getElem hp], ?_⟩
    apply closeTab_active_of_next s _ i _ _ hlen hf hne hidx hact
    · have hi0 : ¬ i = 0 := by omega
      rw [hnone]
      simp only [hi0, if_false, hget]
    · exact findTab_of_mem_nodup hnd2 (List.getElem?_mem hget)

set_option maxRecDepth 100000 in
/-- The two cases of C2 on `[A, B, C]`: closing the active `B` makes `C` active,
closing the active `C` makes `B` active. -/
theorem closeTab_removes_and_activates_witness :
    closeTab (session [tabA, tabB, tabC] tabB.id tabB.content) tabB.id
        = some { session [tabA, tabB, tabC] tabB.id tabB.content with
            tabs := [tabA, tabC], currentTabId := some tabC.id, editor := tabC.content,
            storage := some (JSON.stringify [tabA, tabC]) }
      ∧ closeTab (session [tabA, tabB, tabC] tabC.id tabC.content) tabC.id
        = some { session [tabA, tabB, tabC] tabC.id tabC.content with
            tabs := [tabA, tabB], currentTabId := some tabB.id, editor := tabB.content,
            storage := some (JSON.stringify [tabA, tabB]) } := by
  constructor
  · obtain ⟨next, hn, hc⟩ := (closeTab_removes_and_activates
      (session [tabA, tabB, tabC] tabB.id tabB.content) 1 (by decide) (by decide) (by decide)).1 rfl
    have : next = tabC := by
      have h : (some tabC : Option Tab) = some next := hn
      exact (Option.some.inj h).symm
    subst this
    exact hc
  · obtain ⟨next, hn, hc⟩ := (closeTab_removes_and_activates
      (session [tabA, tabB, tabC] tabC.id tabC.content) 2 (by decide) (by decide) (by decide)).1 rfl
    have : next = tabB := by
      have h : (some tabB : Option Tab) = some next := hn
      exact (Option.some.inj h).symm
    subst this
    exact hc

/-! ## Flush before switch (C5) -/

/-- C5: when `currentTabId` resolves to a tab `T`, the editor holds `x`, and
`id` is another id resolving to a tab `U`, `switchTab(id)` first writes `x` into
`T` (in memory and in the slot, whose text parses back to the list with
`T.content = x`), then makes `id` the active id, then loads the content of `U`,
untouched by the flush, into the editor. -/
theorem switchTab_flush_before_load (s : State) (T U : Tab) (id : JsString)
    (hT : findTab s.tabs s.currentTabId = some T)
    (hU : findTab s.tabs (some id) = some U)
    (hne : s.currentTabId ≠ some id) :
    switchTab s id = { s with
        tabs := updateFirst s.currentTabId (fun t => { t with content := s.editor }) s.tabs,
        currentTabId := some id, editor := U.content,
        storage := some (JSON.stringify
          (updateFirst s.currentTabId (fun t => { t with content := s.editor }) s.tabs)) }
      ∧ findTab (switchTab s id).tabs s.currentTabId = some { T with content := s.editor }
      ∧ findTab (switchTab s id).tabs (some id) = some U
      ∧ (switchTab s id).storage.bind JSON.parse
          = some (JsVal.arr ((switchTab s id).tabs.map Tab.toJson)) := by
  have hFU : findTab (updateFirst s.currentTabId (fun t => { t with content := s.editor }) s.tabs)
      (some id) = some U := by
    rw [findTab_flush_other _ _ _ (Ne.symm hne)]; exact hU
  have hFT : findTab (updateFirst s.currentTabId (fun t => { t with content := s.editor }) s.tabs)
      s.currentTabId = some { T with content := s.editor } := by
    rw [findTab_flush_same, hT]; rfl
  have hsw : switchTab s id = { s with
        tabs := updateFirst s.currentTabId (fun t => { t with content := s.editor }) s.tabs,
        currentTabId := some id, editor := U.content,
        storage := some (JSON.stringify
          (updateFirst s.currentTabId (fun t => { t with content := s.editor }) s.tabs)) } := by
    unfold switchTab
    rw [if_neg hne]
    simp only [saveCurrentTabContent_some s hT, saveTabsToLocal, hFU]
    unfold editorSetValue
    by_cases hl : s.listening = true
    · simp only [hl, if_true]
      rw [saveCurrentTabContent_synced _ hFU rfl]
      rfl
    · simp only [hl]
      rfl
  refine ⟨hsw, ?_, ?_, ?_⟩
  · rw [hsw]; exact hFT
  · rw [hsw]; exact hFU
  · rw [hsw]; exact parse_stringify _

set_option maxRecDepth 100000 in
/-- The scenario of C5: after adding two tabs, typing `x=1` into the third and
switching to the first, the slot holds `x=1` under the third entry. -/
theorem switchTab_flush_before_load_witness :
    (findTab scenario.tabs scenario.currentTabId
        = some { id := js "t3", name := js "Script #3", content := js "x=1" }
      ∧ findTab scenario.tabs (some (js "t1"))
        = some { id := js "t1", name := js "Script #1", content := [] }
      ∧ scenario.currentTabId ≠ some (js "t1"))
    ∧ (switchTab scenario (js "t1")).storage.bind JSON.parse
        = some (JsVal.arr ((switchTab scenario (js "t1")).tabs.map Tab.toJson))
    ∧ (switchTab scenario (js "t1")).tabs
        = [{ id := js "t1", name := js "Script #1", content := [] },
           { id := js "t2", name := js "Script #2", content := [] },
           { id := js "t3", name := js "Script #3", content := js "x=1" }] :=
  ⟨⟨by decide, by decide, by decide⟩,
    (switchTab_flush_before_load scenario
      { id := js "t3", name := js "Script #3", content := js "x=1" }
      { id := js "t1", name := js "Script #1", content := [] } (js "t1")
      (by decide) (by decide) (by decide)).2.2.2,
    by decide⟩

/-! ## Switching to an unknown id (C9) -/

theorem findTab_none_of_forall (l : List Tab) (id : JsString) (h : ∀ t ∈ l, t.id ≠ id) :
    findTab l (some id) = none := by
  unfold findTab
  rw [List.find?_eq_none]
  intro t ht
  simpa [hasId] using h t ht

/-- C9 on the code: for an id that matches no tab and is not the current one,
`switchTab` flushes the editor into the current tab and makes the unknown id the
current id, so afterwards `currentTabId` resolves to no tab. -/
theorem switchTab_unknown_id (s : State) (id : JsString)
    (hne : s.currentTabId ≠ some id) (hno : findTab s.tabs (some id) = none) :
    switchTab s id = { saveCurrentTabContent s with currentTabId := some id }
      ∧ (switchTab s id).currentTabId ≠ s.currentTabId
      ∧ findTab (switchTab s id).tabs (switchTab s id).currentTabId = none := by
  have htabs : findTab (saveCurrentTabContent s).tabs (some id) = none := by
    unfold saveCurrentTabContent
    cases hc : findTab s.tabs s.currentTabId with
    | none => simpa using hno
    | some t =>
      simp only [saveTabsToLocal]
      rw [findTab_flush_other _ _ _ (Ne.symm hne)]
      exact hno
  have hsw : switchTab s id = { saveCurrentTabContent s with currentTabId := some id } := by
    unfold switchTab
    rw [if_neg hne]
    simp only [htabs]
  refine ⟨hsw, ?_, ?_⟩
  · rw [hsw]; exact Ne.symm hne
  · rw [hsw]; exact htabs

set_option maxRecDepth 100000 in
/-- The failing input of C9: tabs `[A, B]`, `A` active, `switchTab("nope")`. -/
theorem switchTab_unknown_id_witness :
    switchTab (session [tabA, tabB] tabA.id tabA.content) (js "nope")
        = { saveCurrentTabContent (session [tabA, tabB] tabA.id tabA.content) with
            currentTabId := some (js "nope") }
      ∧ (switchTab (session [tabA, tabB] tabA.id tabA.content) (js "nope")).currentTabId
          ≠ (session [tabA, tabB] tabA.id tabA.content).currentTabId
      ∧ findTab (switchTab (session [tabA, tabB] tabA.id tabA.content) (js "nope")).tabs
          (switchTab (session [tabA, tabB] tabA.id tabA.content) (js "nope")).currentTabId
          = none :=
  switchTab_unknown_id (session [tabA, tabB] tabA.id tabA.content) (js "nope")
    (by decide) (by decide)

/-! ## The context menu handlers (C7, C8) -/

/-- C7 on the code: `closeContextMenu` empties `dataset.tabId` before the
Rename handler reads it, so when no tab has the empty id the handler finds no
tab and does nothing but hide the menu, whatever the prompt would return. -/
theorem renameOptionClick_finds_no_tab (s : State) (answer : Option JsString)
    (hid : ∀ t ∈ s.tabs, t.id ≠ []) :
    renameOptionClick s answer = closeContextMenu s
      ∧ (renameOptionClick s answer).tabs = s.tabs := by
  have h : findTab (closeContextMenu s).tabs (closeContextMenu s).menuTabId = none :=
    findTab_none_of_forall s.tabs [] hid
  have h2 : renameOptionClick s answer = closeContextMenu s := by
    unfold renameOptionClick
    simp only [h]
  exact ⟨h2, by rw [h2]; rfl⟩

set_option maxRecDepth 100000 in
/-- The failing input of C7: the menu opened on tab `A`, Rename chosen, the
prompt answered `Renamed`: the name of `A` is unchanged. -/
theorem renameOptionClick_finds_no_tab_witness :
    renameOptionClick
        (openContextMenu (session [tabA, tabB] tabA.id tabA.content) 10 20 tabA.id)
        (some (js "Renamed"))
      = closeContextMenu
          (openContextMenu (session [tabA, tabB] tabA.id tabA.content) 10 20 tabA.id)
    ∧ (renameOptionClick
        (openContextMenu (session [tabA, tabB] tabA.id tabA.content) 10 20 tabA.id)
        (some (js "Renamed"))).tabs = [tabA, tabB] :=
  renameOptionClick_finds_no_tab
    (openContextMenu (session [tabA, tabB] tabA.id tabA.content) 10 20 tabA.id)
    (some (js "Renamed")) (by decide)

/-- C8 on the code: `closeContextMenu` empties `dataset.tabId` before the Save
handler reads it, so when no tab has the empty id the handler finds no tab:
`saveTabToFile` is not called, no download and no alert happen. -/
theorem saveOptionClick_finds_no_tab (s : State) (hid : ∀ t ∈ s.tabs, t.id ≠ []) :
    saveOptionClick s = closeContextMenu s
      ∧ (saveOptionClick s).downloads = s.downloads
      ∧ (saveOptionClick s).alerts = s.alerts := by
  have h : findTab (closeContextMenu s).tabs (closeContextMenu s).menuTabId = none :=
    findTab_none_of_forall s.tabs [] hid
  have h2 : saveOptionClick s = closeContextMenu s := by
    unfold saveOptionClick
    simp only [h]
  exact ⟨h2, by rw [h2]; rfl, by rw [h2]; rfl⟩

set_option maxRecDepth 100000 in
/-- The failing input of C8: the menu opened on tab `A`, Save chosen: nothing
is downloaded. -/
theorem saveOptionClick_finds_no_tab_witness :
    saveOptionClick
        (openContextMenu (session [tabA, tabB] tabA.id tabA.content) 10 20 tabA.id)
      = closeContextMenu
          (openContextMenu (session [tabA, tabB] tabA.id tabA.content) 10 20 tabA.id)
    ∧ (saveOptionClick
        (openContextMenu (session [tabA, tabB] tabA.id tabA.content) 10 20 tabA.id)).downloads
        = []
    ∧ (saveOptionClick
        (openContextMenu (session [tabA, tabB] tabA.id tabA.content) 10 20 tabA.id)).alerts
        = [] :=
  saveOptionClick_finds_no_tab
    (openContextMenu (session [tabA, tabB] tabA.id tabA.content) 10 20 tabA.id) (by decide)

/-! ## Activation at startup (C10) -/

/-- C10 on the code: `startup` sets `currentTabId` before it calls
`switchTab(currentTabId)`, which therefore returns at once and never loads the
editor.  After a start without stored tabs the session is `freshSession`: the
default tab is active with its placeholder content while the editor is empty,
and a following `addNewTab` overwrites that content with the empty string.
After a start from a stored list the first tab is active and the editor is
empty as well, whatever the first tab holds. -/
theorem startup_never_loads_editor (freshId other : JsString) (t : Tab) (ts : List Tab) :
    startup none freshId = some (freshSession freshId)
      ∧ findTab (freshSession freshId).tabs (freshSession freshId).currentTabId
          = some { id := freshId, name := js "Script #1", content := js "// Start coding here...\n" }
      ∧ (freshSession freshId).editor = []
      ∧ (addNewTab (freshSession freshId) other).tabs.head?
          = some { id := freshId, name := js "Script #1", content := [] }
      ∧ startup (some (JSON.stringify (t :: ts))) freshId
          = some { initial (some (JSON.stringify (t :: ts))) with
              tabs := t :: ts, currentTabId := some t.id, tabCounter := (t :: ts).length + 1,
              editor := [], listening := true } := by
  have hname : js "Script #" ++ decimal 1 = js "Script #1" := by decide
  refine ⟨?_, ?_, rfl, ?_, ?_⟩
  · simp [startup, loadTabsFromLocal, initial, createTab, switchTab, freshSession, hname]
  · simp [freshSession, findTab_cons, hasId, defaultContent]
  · by_cases h : freshId = other
    · simp [addNewTab, saveCurrentTabContent, saveTabsToLocal, editorSetValue, createTab,
        freshSession, initial, findTab_cons, findTab_nil, hasId, updateFirst, h]
    · simp [addNewTab, saveCurrentTabContent, saveTabsToLocal, editorSetValue, createTab,
        freshSession, initial, findTab_cons, findTab_nil, hasId, updateFirst, h]
  · have hload : loadTabsFromLocal
          { storage := some (JSON.stringify (t :: ts)), tabs := [], tabCounter := 1 }
        = (true, { storage := some (JSON.stringify (t :: ts)),
                   tabs := (t :: ts).map Tab.toJson, tabCounter := (t :: ts).length + 1 }) := by
      simp [loadTabsFromLocal, stringify_ne_nil, parse_stringify]
    have hback := toTabs_toJson (t :: ts)
    simp only [List.map_cons] at hload hback
    simp [startup, initial, hload, hback, switchTab]

/-! ## The first tab under create and close (C1) -/

theorem saveCurrentTabContent_tabs (s : State) :
    (saveCurrentTabContent s).tabs
      = updateFirst s.currentTabId (fun t => { t with content := s.editor }) s.tabs := by
  unfold saveCurrentTabContent
  cases h : findTab s.tabs s.currentTabId with
  | none => simp only []; exact (updateFirst_none _ _ _ h).symm
  | some t => rfl

theorem saveCurrentTabContent_rest (s : State) :
    (saveCurrentTabContent s).currentTabId = s.currentTabId
      ∧ (saveCurrentTabContent s).editor = s.editor
      ∧ (saveCurrentTabContent s).listening = s.listening := by
  unfold saveCurrentTabContent
  cases h : findTab s.tabs s.currentTabId with
  | none => exact ⟨rfl, rfl, rfl⟩
  | some t => exact ⟨rfl, rfl, rfl⟩

theorem editorSetValue_tabs (s : State) (x : JsString) :
    (editorSetValue s x).tabs
      = if s.listening then updateFirst s.currentTabId (fun t => { t with content := x }) s.tabs
        else s.tabs := by
  unfold editorSetValue
  by_cases hl : s.listening = true
  · simp only [hl, if_true, saveCurrentTabContent_tabs]
  · simp only [hl]; rfl

theorem editorSetValue_rest (s : State) (x : JsString) :
    (editorSetValue s x).currentTabId = s.currentTabId ∧ (editorSetValue s x).editor = x := by
  unfold editorSetValue
  by_cases hl : s.listening = true
  · simp only [hl, if_true]
    exact ⟨(saveCurrentTabContent_rest _).1, (saveCurrentTabContent_rest _).2.1⟩
  · simp only [hl]; exact ⟨rfl, rfl⟩

theorem headKept_flush (first : Tab) (key : Option JsString) (x : JsString) (l : List Tab)
    (h : HeadKept first l) :
    HeadKept first (updateFirst key (fun t => { t with content := x }) l) := by
  obtain ⟨f, r, rfl, hid, hn⟩ := h
  unfold updateFirst
  by_cases hk : hasId key f = true
  · simp only [hk, if_true]; exact ⟨_, _, rfl, hid, hn⟩
  · simp only [hk]; exact ⟨_, _, rfl, hid, hn⟩

theorem headKept_append (first : Tab) (l more : List Tab) (h : HeadKept first l) :
    HeadKept first (l ++ more) := by
  obtain ⟨f, r, rfl, hid, hn⟩ := h
  exact ⟨f, r ++ more, rfl, hid, hn⟩

theorem headSame_flush (first : Tab) (key : Option JsString) (x : JsString) (r : List Tab)
    (hr : first.id ∉ r.map Tab.id) (hx : key = some first.id → x = first.content) :
    ∃ r2, updateFirst key (fun t => { t with content := x }) (first :: r) = first :: r2
      ∧ first.id ∉ r2.map Tab.id := by
  unfold updateFirst
  by_cases hk : hasId key first = true
  · have hkey : key = some first.id := by simpa [hasId, eq_comm] using hk
    have hsame : ({ first with content := x } : Tab) = first := by
      rw [hx hkey]
    simp only [hk, if_true, hsame]
    exact ⟨r, rfl, hr⟩
  · simp only [hk]
    refine ⟨_, rfl, ?_⟩
    rw [flush_ids]
    exact hr

theorem findIndex_lt (id : JsString) (l : List Tab) (j : Nat) (h : findIndex id l = some j) :
    j < l.length := by
  induction l generalizing j with
  | nil => simp [findIndex] at h
  | cons t ts ih =>
    unfold findIndex at h
    by_cases ht : t.id = id
    · simp only [ht, if_true, Option.some.injEq] at h
      subst h; simp
    · simp only [ht, if_false, Option.map_eq_some'] at h
      obtain ⟨k, hk, rfl⟩ := h
      have := ih k hk
      simp only [List.length_cons]
      omega

/-- What `closeTab` does on a non-empty list: nothing, or it removes one tab
behind the first and, when that was the active tab, activates a remaining
tab. -/
theorem closeTab_cases (s : State) (first : Tab) (rest : List Tab) (id : JsString)
    (hs : s.tabs = first :: rest) :
    closeTab s id = some s ∨
      ∃ j, j < rest.length ∧
        ((s.currentTabId ≠ some id ∧
            closeTab s id = some (saveTabsToLocal { s with tabs := first :: rest.eraseIdx j }))
          ∨ ∃ t, t ∈ first :: rest.eraseIdx j ∧
            closeTab s id = some (saveTabsToLocal (editorSetValue
              { s with tabs := first :: rest.eraseIdx j, currentTabId := some t.id }
              t.content))) := by
  unfold closeTab
  rw [hs]
  by_cases hlen : (first :: rest).length ≤ 1
  · left; simp only [hlen, if_true]
  simp only [hlen, if_false, List.getElem?_cons_zero]
  by_cases hid : id = first.id
  · left; simp only [hid, if_true]
  simp only [hid, if_false]
  have hid2 : ¬ first.id = id := fun h => hid h.symm
  simp only [findIndex, hid2, if_false]
  cases hj : findIndex id rest with
  | none => left; simp
  | some j =>
    right
    have hjlt := findIndex_lt id rest j hj
    refine ⟨j, hjlt, ?_⟩
    simp only [Option.map_some', List.eraseIdx_cons_succ]
    by_cases hact : s.currentTabId = some id
    · right
      simp only [hact, if_true]
      cases hn : (first :: rest.eraseIdx j)[j + 1]? with
      | some t =>
        exact ⟨t, List.getElem?_mem hn, by simp⟩
      | none =>
        have hlt : j < (first :: rest.eraseIdx j).length := by
          simp only [List.length_cons, List.length_eraseIdx, hjlt, if_true]
          omega
        refine ⟨(first :: rest.eraseIdx j)[j], List.getElem_mem hlt, ?_⟩
        simp [List.getElem?_eq_getElem hlt]
    · left
      exact ⟨hact, by simp [hact]⟩

theorem headKept_editorSetValue (first : Tab) (s : State) (x : JsString)
    (h : HeadKept first s.tabs) : HeadKept first (editorSetValue s x).tabs := by
  rw [editorSetValue_tabs]
  by_cases hl : s.listening = true
  · simp only [hl, if_true]; exact headKept_flush first _ _ _ h
  · simp only [hl]; exact h

theorem headKept_addNewTab (first : Tab) (s : State) (id : JsString)
    (h : HeadKept first s.tabs) : HeadKept first (addNewTab s id).tabs := by
  unfold addNewTab
  simp only [saveTabsToLocal]
  apply headKept_editorSetValue
  simp only [createTab]
  apply headKept_append
  rw [saveCurrentTabContent_tabs]
  exact headKept_flush first _ _ _ h

theorem headKept_closeTab (first : Tab) (s : State) (id : JsString)
    (h : HeadKept first s.tabs) :
    ∃ s2, closeTab s id = some s2 ∧ HeadKept first s2.tabs := by
  obtain ⟨f, r, hs, hid, hn⟩ := h
  rcases closeTab_cases s f r id hs with h0 | ⟨j, _, ⟨_, h1⟩ | ⟨t, _, h2⟩⟩
  · exact ⟨s, h0, f, r, hs, hid, hn⟩
  · exact ⟨_, h1, f, r.eraseIdx j, rfl, hid, hn⟩
  · refine ⟨_, h2, ?_⟩
    simp only [saveTabsToLocal]
    apply headKept_editorSetValue
    exact ⟨f, r.eraseIdx j, rfl, hid, hn⟩

theorem headKept_step (first : Tab) (s : State) (op : Op) (h : HeadKept first s.tabs) :
    ∃ s2, step s op = some s2 ∧ HeadKept first s2.tabs := by
  cases op with
  | createTab id name content =>
    exact ⟨_, rfl, headKept_append first _ _ h⟩
  | addNewTab id => exact ⟨_, rfl, headKept_addNewTab first s id h⟩
  | closeTab id => exact headKept_closeTab first s id h

/-- Every sequence of calls runs and keeps a first tab with the same id and
name. -/
theorem headKept_run (first : Tab) (ops : List Op) :
    ∀ s : State, HeadKept first s.tabs → ∃ s2, run s ops = some s2 ∧ HeadKept first s2.tabs := by
  induction ops with
  | nil => intro s h; exact ⟨s, rfl, h⟩
  | cons op ops ih =>
    intro s h
    obtain ⟨s1, h1, hk⟩ := headKept_step first s op h
    obtain ⟨s2, h2, hk2⟩ := ih s1 hk
    exact ⟨s2, by simp only [run, h1, h2], hk2⟩

theorem headSame_editorSetValue (first : Tab) (s : State) (x : JsString) (r : List Tab)
    (hs : s.tabs = first :: r) (hr : first.id ∉ r.map Tab.id)
    (hx : s.currentTabId = some first.id → x = first.content) :
    HeadSame first (saveTabsToLocal (editorSetValue s x)) := by
  unfold HeadSame
  simp only [saveTabsToLocal, editorSetValue_tabs, (editorSetValue_rest s x).1,
    (editorSetValue_rest s x).2, hs]
  by_cases hl : s.listening = true
  · simp only [hl, if_true]
    obtain ⟨r2, h2, hr2⟩ := headSame_flush first s.currentTabId x r hr hx
    exact ⟨r2, h2, hr2, hx⟩
  · simp only [hl]
    exact ⟨r, rfl, hr, hx⟩

theorem headSame_createTab (first : Tab) (s : State) (id name content : JsString)
    (h : HeadSame first s) (hid : id ≠ first.id) :
    HeadSame first (createTab s id name content) := by
  obtain ⟨r, hs, hr, hx⟩ := h
  refine ⟨r ++ [{ id := id, name := name, content := content }], ?_, ?_, hx⟩
  · simp [createTab, hs]
  · simp only [List.map_append, List.map_cons, List.map_nil, List.mem_append, List.mem_singleton]
    rintro (h1 | h1)
    · exact hr h1
    · exact hid h1.symm

theorem headSame_addNewTab (first : Tab) (s : State) (id : JsString)
    (h : HeadSame first s) (hid : id ≠ first.id) : HeadSame first (addNewTab s id) := by
  obtain ⟨r, hs, hr, hx⟩ := h
  unfold addNewTab
  obtain ⟨r2, h2, hr2⟩ := headSame_flush first s.currentTabId s.editor r hr hx
  have htabs : (saveCurrentTabContent s).tabs = first :: r2 := by
    rw [saveCurrentTabContent_tabs, hs, h2]
  apply headSame_editorSetValue first _ []
    (r2 ++ [{ id := id, name := js "Script #" ++ decimal (saveCurrentTabContent s).tabCounter,
              content := [] }])
  · simp [createTab, htabs]
  · simp only [List.map_append, List.map_cons, List.map_nil, List.mem_append,
      List.mem_singleton]
    rintro (h1 | h1)
    · exact hr2 h1
    · exact hid h1.symm
  · intro hc
    simp only [createTab, Option.some.injEq] at hc
    exact absurd hc hid

theorem headSame_closeTab (first : Tab) (s s2 : State) (id : JsString)
    (h : HeadSame first s) (hc : closeTab s id = some s2) : HeadSame first s2 := by
  obtain ⟨r, hs, hr, hx⟩ := h
  have hsub : ∀ j, first.id ∉ (r.eraseIdx j).map Tab.id := by
    intro j hm
    exact hr (((List.eraseIdx_sublist r j).map Tab.id).subset hm)
  rcases closeTab_cases s first r id hs with h0 | ⟨j, _, ⟨_, h1⟩ | ⟨t, ht, h2⟩⟩
  · rw [h0] at hc; cases hc
    exact ⟨r, hs, hr, hx⟩
  · rw [h1] at hc; cases hc
    exact ⟨r.eraseIdx j, rfl, hsub j, hx⟩
  · rw [h2] at hc; cases hc
    apply headSame_editorSetValue first _ _ (r.eraseIdx j) rfl (hsub j)
    intro hcur
    simp only [Option.some.injEq] at hcur
    rcases List.mem_cons.mp ht with rfl | hm
    · rfl
    · exact absurd (hcur ▸ List.mem_map_of_mem Tab.id hm) (hsub j)

/-- Every sequence of calls that gives no new tab the id of the first tab keeps
the first tab as it is. -/
theorem headSame_run (first : Tab) (ops : List Op) :
    ∀ s s2 : State, HeadSame first s → (∀ op ∈ ops, op.newId ≠ some first.id) →
      run s ops = some s2 → HeadSame first s2 := by
  induction ops with
  | nil =>
    intro s s2 h _ hrun
    simp only [run, Option.some.injEq] at hrun
    exact hrun ▸ h
  | cons op ops ih =>
    intro s s2 h hops hrun
    have hop := hops op (List.mem_cons_self op ops)
    have hrest : ∀ o ∈ ops, o.newId ≠ some first.id :=
      fun o ho => hops o (List.mem_cons_of_mem op ho)
    simp only [run] at hrun
    cases hst : step s op with
    | none => simp [hst] at hrun
    | some s1 =>
      simp only [hst] at hrun
      have h1 : HeadSame first s1 := by
        cases op with
        | createTab id name content =>
          simp only [step, Option.some.injEq] at hst
          subst hst
          exact headSame_createTab first s id name content h
            (fun e => hop (by simp [Op.newId, e]))
        | addNewTab id =>
          simp only [step, Option.some.injEq] at hst
          subst hst
          exact headSame_addNewTab first s id h (fun e => hop (by simp [Op.newId, e]))
        | closeTab id => exact headSame_closeTab first s s1 id h hst
      exact ih s1 s2 h1 hrest hrun

/-- C1 as the code has it: from a state whose tab list starts with `first`,
every sequence of `createTab`, `addNewTab` and `closeTab` calls with arbitrary
ids runs without throwing and ends with a non-empty list whose first tab has the
id and name of `first`; its content is that of `first` too when, at the start,
no other tab carries the id of `first` and the editor holds the content of
`first` if `first` is active, and no created tab is given the id of `first`. -/
theorem first_tab_kept (s : State) (first : Tab) (rest : List Tab) (ops : List Op)
    (hs : s.tabs = first :: rest) :
    ∃ s2 f r, run s ops = some s2 ∧ s2.tabs = f :: r ∧ f.id = first.id ∧ f.name = first.name
      ∧ (first.id ∉ rest.map Tab.id →
          (s.currentTabId = some first.id → s.editor = first.content) →
          (∀ op ∈ ops, op.newId ≠ some first.id) → f = first) := by
  obtain ⟨s2, hrun, f, r, h2, hid, hn⟩ := headKept_run first ops s ⟨first, rest, hs, rfl, rfl⟩
  refine ⟨s2, f, r, hrun, h2, hid, hn, ?_⟩
  intro hr hx hops
  obtain ⟨r3, h3, _, _⟩ := headSame_run first ops s s2 ⟨rest, hs, hr, hx⟩ hops hrun
  rw [h2] at h3
  exact (List.cons.inj h3).1

set_option maxRecDepth 100000 in
/-- C1 as stated fails right after a start without stored tabs: the first tab
holds the placeholder text, the editor is empty, and one `addNewTab` replaces
the content of the first tab by the empty string. -/
theorem first_tab_content_counterexample :
    startup none (js "t1") = some (freshSession (js "t1"))
      ∧ (freshSession (js "t1")).tabs ≠ []
      ∧ ¬ FirstTabUnchanged (freshSession (js "t1")) [Op.addNewTab (js "t2")] := by
  refine ⟨by decide, by decide, ?_⟩
  rintro ⟨s2, hrun, _, hhead⟩
  simp only [run, step, Option.some.injEq] at hrun
  subst hrun
  revert hhead
  decide

set_option maxRecDepth 100000 in
/-- C1 on `[A, B, C]` with `B` active and the editor in step with it: after the
calls of `sampleOps` the first tab is still `A`, unchanged. -/
theorem first_tab_kept_witness :
    ∃ s2 r, run (session [tabA, tabB, tabC] tabB.id tabB.content) sampleOps = some s2
      ∧ s2.tabs = tabA :: r := by
  obtain ⟨s2, f, r, hrun, ht, _, _, hsame⟩ :=
    first_tab_kept (session [tabA, tabB, tabC] tabB.id tabB.content) tabA [tabB, tabC]
      sampleOps rfl
  have hf : f = tabA := hsame (by decide) (by decide) (by decide)
  exact ⟨s2, r, hrun, hf ▸ ht⟩

end CelestiaMonaco
